import Mathlib

/-!
Verification of the mp4 capture pipeline of `bevy_capture_media`
(src/formats/mp4.rs, src/render.rs, src/lib.rs), as a shallow embedding.

Conventions of the embedding:
* machine integers (`u32`, `usize`) are modelled as `Nat`; where the Rust
  code performs `u32` arithmetic whose overflow is observable (the
  `expected_size != frame_data.len() as u32` comparison) the wrap is made
  explicit with `% 2 ^ 32` (release-mode wrapping semantics);
* `video_rs::time::Time` positions and `std::time::Duration` frame times are
  modelled as `Nat` tick counts; `position.aligned_with(t).add()` adds the
  two times in a common time base, i.e. `position + t`;
* channels are modelled by the list of messages the receiver will see, in
  send order, followed by channel closure;
* panics (`expect`) are modelled with `Except String`.
-/

namespace BevyCaptureMedia

/-- The payload type sent to the encode worker (`Mp4TaskPayload` in
src/formats/mp4.rs): a data frame with its reported duration and raw pixel
bytes, or the termination signal. -/
inductive Mp4TaskPayload where
  | Data (frame_time : Nat) (frame_data : List Nat)
  | Terminate
deriving DecidableEq, Repr

/-- The even-padded width computed by the worker:
`((width as f64 / 2.0).ceil() * 2.0) as usize`.  Every `u32` is exactly
representable in `f64` and the ceiling and doubling are exact, so on all
`u32` inputs the float computation equals `((width + 1) / 2) * 2` in `Nat`
arithmetic. -/
def evenWidth (width : Nat) : Nat := ((width + 1) / 2) * 2

/-- The flat byte index used by the worker for element `(h, w, c)`:
`frame_data[w * format.pixel_size() + format.pixel_size() * h * width + c]`. -/
def pixelIndex (width ps h w c : Nat) : Nat := w * ps + ps * h * width + c

/-- The converted frame built by `Array3::from_shape_fn((height, even_width, 3), ...)`:
row-major `(h, w, c)` nesting; padding columns `w ≥ width` are zero, other
elements are read from the flat source buffer.  Rust indexing panics out of
bounds; here `List.getD _ 0` is used, and the in-bounds condition is proved
where the element value matters (it holds whenever the frame passed the size
validation and `c < pixel_size`). -/
def convertedFrame (width height ps : Nat) (frame_data : List Nat) : List (List (List Nat)) :=
  (List.range height).map fun h =>
    (List.range (evenWidth width)).map fun w =>
      (List.range 3).map fun c =>
        if width ≤ w then 0 else frame_data.getD (pixelIndex width ps h w c) 0

/-- How the worker's receive loop ended: an explicit `Terminate` message, the
channel closing (every sender dropped), or the early `return` after the
frame-size validation failed. -/
inductive ExitKind where
  | terminate
  | channelClosed
  | validationFailure
deriving DecidableEq, Repr

/-- Observable outcome of one encode worker run: the frames submitted to the
encoder together with the position each was submitted at, whether
`encoder.finish()` was invoked before the task completed, whether the
frame-shape error was logged, and how the loop exited. -/
structure WorkerResult where
  encoded : List (List (List (List Nat)) × Nat)
  finished : Bool
  errorLogged : Bool
  exit : ExitKind
deriving DecidableEq, Repr

/-- The worker's receive loop
(`while let Ok(Mp4TaskPayload::Data(frame_time, frame_data)) = receiver.recv()`):
* an empty message list models the channel closing, which ends the loop and
  reaches `encoder.finish()`;
* a `Terminate` message fails the `Data` pattern, ending the loop the same way;
* a `Data` frame is size-validated in `u32` arithmetic
  (`expected_size != frame_data.len() as u32`); a mismatch logs an error and
  `return`s — skipping `encoder.finish()`; otherwise the converted frame is
  submitted at `position` and `position` advances by the frame's duration. -/
def encodeLoop (width height ps : Nat) :
    List Mp4TaskPayload → Nat → List (List (List (List Nat)) × Nat) → WorkerResult
  | [], _, acc =>
      { encoded := acc.reverse, finished := true, errorLogged := false, exit := .channelClosed }
  | .Terminate :: _, _, acc =>
      { encoded := acc.reverse, finished := true, errorLogged := false, exit := .terminate }
  | .Data frame_time frame_data :: rest, position, acc =>
      if (width * height * ps) % 2 ^ 32 ≠ frame_data.length % 2 ^ 32 then
        { encoded := acc.reverse, finished := false, errorLogged := true,
          exit := .validationFailure }
      else
        encodeLoop width height ps rest (position + frame_time)
          ((convertedFrame width height ps frame_data, position) :: acc)

/-- One whole worker run (the async block spawned on `Mp4State::Start`),
starting from `position = Time::zero()`, fed the given message sequence.
Encoder construction and per-frame encoding are assumed to succeed (their
failures are separate `expect` panics not probed here). -/
def runWorker (width height ps : Nat) (msgs : List Mp4TaskPayload) : WorkerResult :=
  encodeLoop width height ps msgs 0 []

/-- The frames an uninterrupted run submits, paired with their submit
positions: the frame at the head is submitted at `position`, and the run
continues at `position + frame_time`. -/
def encodedRun (width height ps : Nat) :
    List (Nat × List Nat) → Nat → List (List (List (List Nat)) × Nat)
  | [], _ => []
  | (frame_time, frame_data) :: rest, position =>
      (convertedFrame width height ps frame_data, position) ::
        encodedRun width height ps rest (position + frame_time)

/-- The positions at which successive frames with the given durations are
submitted, starting from `position`: each frame goes out at the current
position, which then advances by that frame's duration. -/
def cumulative : List Nat → Nat → List Nat
  | [], _ => []
  | d :: rest, position => position :: cumulative rest (position + d)

/-- Modelled from the spec: `FrameEntry` lives in src/data.rs, which is not
part of the provided sources; its fields are taken from §3 of the spec
("`frame_time`: duration ...; `pixels`: raw pixel buffer") and from the field
accesses `data.frame_time` / `data.texture` in src/formats/mp4.rs. -/
structure FrameEntry where
  frame_time : Nat
  texture : List Nat
deriving DecidableEq, Repr

/-- Modelled from the spec: the `Recording` value stored in `ActiveRecorders`
lives in src/data.rs, which is not part of the provided sources; its fields
are taken from §3 of the spec ("`target_handle`: reference to the render
target"; FrameBuffer of FrameEntry whose back is the most recent) and from
the accesses `recorder.target_handle` / `recorder.frames.back()` in
src/formats/mp4.rs.  The frame buffer is a list whose last element is the
back (most recent) entry. -/
structure Recorder where
  target_handle : Nat
  frames : List FrameEntry
deriving DecidableEq, Repr

/-- Modelled from the spec: `ActiveRecorders` (src/data.rs, not provided) is
the registry "given a tracking id, returns the associated Recording"; as in
the source it is queried only through `.get`, modelled by association-list
lookup on the tracking id. -/
def lookupRecorder (recorders : List (Nat × Recorder)) (id : Nat) : Option Recorder :=
  (recorders.find? fun p => p.1 == id).map Prod.snd

/-- One `Mp4Task` component (src/formats/mp4.rs): field `.2` is the owning
tracking id; the channel sender `.1` is modelled by whether the worker still
holds the receiver (`receiverAlive`: a crossbeam send succeeds exactly when
the channel is not disconnected) and by the queue of messages sent so far.
The spawned `Task` handle `.0` has no observable state here. -/
structure Mp4Task where
  tracking_id : Nat
  receiverAlive : Bool
  queued : List Mp4TaskPayload
deriving DecidableEq, Repr

/-- Pixel metadata of a resolved image asset: `image.size().x`,
`image.size().y` and `image.texture_descriptor.format.pixel_size()`. -/
structure RenderImage where
  width : Nat
  height : Nat
  pixel_size : Nat
deriving DecidableEq, Repr

/-- The `Mp4State` event discriminant (src/formats/mp4.rs). -/
inductive Mp4State where
  | Start
  | Stop
deriving DecidableEq, Repr

/-- One `Mp4Capture` event (`CaptureFrame<Mp4State>`): tracking id, Start or
Stop, and the optional output path (opaque here; only its presence matters,
and no claim probes it). -/
structure Mp4Capture where
  tracking_id : Nat
  capture_type : Mp4State
  path : Option String
deriving DecidableEq, Repr

/-- The ECS state `manage_mp4_task` reads and writes: the recorder registry
(read only through `.get`), the `Mp4Task` components matched by the `tasks`
query, and the tasks spawned by `commands.spawn` during the drain (commands
are applied after the system runs, so spawned tasks are not visible to the
`tasks` query within the same drain). -/
structure ManageState where
  recorders : List (Nat × Recorder)
  tasks : List Mp4Task
  spawned : List Mp4Task
deriving DecidableEq, Repr

/-- The task component spawned on `Mp4State::Start`: a fresh unbounded
channel (worker holds the live receiver, no message sent yet) tagged with the
event's tracking id. -/
def newMp4Task (id : Nat) : Mp4Task :=
  { tracking_id := id, receiverAlive := true, queued := [] }

/-- Effect of `task.1.send(Mp4TaskPayload::Terminate)` on the task list: the
message is appended to the queue of the first task whose `.2` matches the
tracking id (the one `tasks.iter().find(...)` returns). -/
def queueTerminate : List Mp4Task → Nat → List Mp4Task
  | [], _ => []
  | t :: ts, id =>
      if t.tracking_id == id then
        { t with queued := t.queued ++ [Mp4TaskPayload.Terminate] } :: ts
      else
        t :: queueTerminate ts id

/-- One iteration of the `'event_drain` loop of `manage_mp4_task`
(src/formats/mp4.rs):
* unknown tracking id (`recorders.get` misses): the event is skipped;
* the recorder's target image does not resolve (`images.get` misses):
  `continue 'event_drain` — the event is skipped before the Start/Stop match;
* `Start`: a worker is spawned and an `Mp4Task` is commanded;
* `Stop`: the first task with a matching `.2` gets `Terminate`; if the send
  fails because the worker has already dropped the receiver, the
  `.expect("Failed to send terminate signal to task")` panics; if no task
  matches, nothing happens. -/
def processEvent (images : Nat → Option RenderImage) (st : ManageState) (e : Mp4Capture) :
    Except String ManageState :=
  match lookupRecorder st.recorders e.tracking_id with
  | none => Except.ok st
  | some recorder =>
    match images recorder.target_handle with
    | none => Except.ok st
    | some _image =>
      match e.capture_type with
      | Mp4State.Start =>
          Except.ok { st with spawned := st.spawned ++ [newMp4Task e.tracking_id] }
      | Mp4State.Stop =>
          match st.tasks.find? (fun t => t.tracking_id == e.tracking_id) with
          | none => Except.ok st
          | some t =>
              if t.receiverAlive then
                Except.ok { st with tasks := queueTerminate st.tasks e.tracking_id }
              else
                Except.error "Failed to send terminate signal to task"

/-- The whole `manage_mp4_task` system: `events.drain()` processed in order;
a panic aborts the drain. -/
def manage_mp4_task (images : Nat → Option RenderImage) (st : ManageState) :
    List Mp4Capture → Except String ManageState
  | [] => Except.ok st
  | e :: rest =>
      match processEvent images st e with
      | Except.ok st2 => manage_mp4_task images st2 rest
      | Except.error msg => Except.error msg

/-- Effect of `send_frame_to_mp4_tasks` on one task (src/formats/mp4.rs):
look the task's recorder up; take `recorder.frames.back()` (the most recent
entry), skipping when the buffer is empty; send
`Mp4TaskPayload::Data(frame_time, texture.clone())` on the task's channel,
discarding the result (`let _ = ...`), so a send onto a disconnected channel
changes nothing and surfaces no error. -/
def sendFrameToTask (recorders : List (Nat × Recorder)) (task : Mp4Task) : Mp4Task :=
  match lookupRecorder recorders task.tracking_id with
  | none => task
  | some recorder =>
    match recorder.frames.getLast? with
    | none => task
    | some entry =>
        if task.receiverAlive then
          { task with queued := task.queued ++ [Mp4TaskPayload.Data entry.frame_time entry.texture] }
        else
          task

/-- The whole `send_frame_to_mp4_tasks` system: every task in the query is
visited; the recorder registry is only read (returned unchanged). -/
def send_frame_to_mp4_tasks (recorders : List (Nat × Recorder)) (tasks : List Mp4Task) :
    List (Nat × Recorder) × List Mp4Task :=
  (recorders, tasks.map (sendFrameToTask recorders))

/-- The recorder state seen by the render-world system `smuggle_frame`
(src/render.rs) through `SharedDataSmuggler`: the render target handle and
the `last_frame` slot it overwrites.  (`SharedDataSmuggler` itself lives in
src/data.rs, not provided; the fields are those accessed in render.rs.) -/
structure SmuggledRecorder where
  target_handle : Nat
  last_frame : Option (List Nat)
deriving DecidableEq, Repr

/-- The GPU readback of `smuggle_frame`: a destination buffer of exactly
`width * height * pixel_size` bytes is created, `copy_texture_to_buffer`
fills it from the texture, and the whole mapped slice is copied out
(`Vec::from(data.deref())`).  The texture contents are abstracted as a byte
function `gpu handle i`; the read-out vector is its first `size` bytes. -/
def readbackBuffer (gpu : Nat → Nat → Nat) (handle size : Nat) : List Nat :=
  (List.range size).map (gpu handle)

/-- Effect of `smuggle_frame` on one smuggled recorder: if the target image
does not resolve in the render assets, the recorder is skipped untouched;
otherwise the readback buffer replaces `last_frame`. -/
def smuggleOne (images : Nat → Option RenderImage) (gpu : Nat → Nat → Nat)
    (r : SmuggledRecorder) : SmuggledRecorder :=
  match images r.target_handle with
  | none => r
  | some image =>
      { r with
        last_frame :=
          some (readbackBuffer gpu r.target_handle (image.width * image.height * image.pixel_size)) }

/-- The whole `smuggle_frame` system: every entry of the smuggler map is
visited (keys untouched). -/
def smuggle_frame (images : Nat → Option RenderImage) (gpu : Nat → Nat → Nat)
    (smugglers : List (Nat × SmuggledRecorder)) : List (Nat × SmuggledRecorder) :=
  smugglers.map fun p => (p.1, smuggleOne images gpu p.2)

/-! ## Helper lemmas about the encode worker -/

/-- In every state of the receive loop, `encoder.finish()` is reached exactly
when the loop does not end in the early `return` of the validation branch. -/
theorem encodeLoop_finished_iff (width height ps : Nat) :
    ∀ (msgs : List Mp4TaskPayload) (pos : Nat)
      (acc : List (List (List (List Nat)) × Nat)),
      (encodeLoop width height ps msgs pos acc).finished = true ↔
        (encodeLoop width height ps msgs pos acc).exit ≠ ExitKind.validationFailure
  | [], _, _ => by simp [encodeLoop]
  | .Terminate :: _, _, _ => by simp [encodeLoop]
  | .Data t d :: rest, pos, acc => by
      simp only [encodeLoop]
      by_cases hb : (width * height * ps) % 2 ^ 32 = d.length % 2 ^ 32
      · rw [if_neg (fun hcon => hcon hb)]
        exact encodeLoop_finished_iff width height ps rest (pos + t)
          ((convertedFrame width height ps d, pos) :: acc)
      · rw [if_pos hb]
        simp

/-- Draining a run of size-valid data frames from the channel encodes each of
them at the running position and leaves the loop at the position advanced by
the sum of their durations. -/
theorem encodeLoop_valid_segment (width height ps : Nat) :
    ∀ (frames : List (Nat × List Nat)) (pos : Nat)
      (acc : List (List (List (List Nat)) × Nat)) (rest : List Mp4TaskPayload),
      (∀ f ∈ frames, (width * height * ps) % 2 ^ 32 = f.2.length % 2 ^ 32) →
      encodeLoop width height ps
          ((frames.map fun f => Mp4TaskPayload.Data f.1 f.2) ++ rest) pos acc =
        encodeLoop width height ps rest (pos + (frames.map Prod.fst).sum)
          ((encodedRun width height ps frames pos).reverse ++ acc)
  | [], pos, acc, rest, _ => by simp [encodedRun]
  | (t, d) :: frames, pos, acc, rest, hv => by
      have hd : (width * height * ps) % 2 ^ 32 = d.length % 2 ^ 32 := hv (t, d) (by simp)
      have ih := encodeLoop_valid_segment width height ps frames (pos + t)
        ((convertedFrame width height ps d, pos) :: acc) rest
        (fun f hf => hv f (List.mem_cons_of_mem _ hf))
      simp only [List.map_cons, List.cons_append, encodeLoop]
      rw [if_neg (fun hcon => hcon hd)]
      exact ih.trans (by simp [encodedRun, Nat.add_assoc, List.append_assoc])

/-- The submit positions of an uninterrupted run are exactly the cumulative
positions of the frames' durations. -/
theorem encodedRun_map_snd (width height ps : Nat) :
    ∀ (frames : List (Nat × List Nat)) (pos : Nat),
      (encodedRun width height ps frames pos).map Prod.snd =
        cumulative (frames.map Prod.fst) pos
  | [], _ => rfl
  | (t, d) :: frames, pos => by
      simp [encodedRun, cumulative, encodedRun_map_snd width height ps frames (pos + t)]

/-- The frames of an uninterrupted run are the converted source frames, in
order. -/
theorem encodedRun_map_fst (width height ps : Nat) :
    ∀ (frames : List (Nat × List Nat)) (pos : Nat),
      (encodedRun width height ps frames pos).map Prod.fst =
        frames.map fun f => convertedFrame width height ps f.2
  | [], _ => rfl
  | (t, d) :: frames, pos => by
      simp [encodedRun, encodedRun_map_fst width height ps frames (pos + t)]

/-- Each cumulative position is the previous one advanced by the previous
frame's duration. -/
theorem cumulative_getD_succ :
    ∀ (ds : List Nat) (pos i : Nat), i + 1 < ds.length →
      (cumulative ds pos).getD (i + 1) 0 =
        (cumulative ds pos).getD i 0 + ds.getD i 0
  | d :: d2 :: rest, pos, 0, _ => by simp [cumulative]
  | d :: rest, pos, i + 1, h => by
      have := cumulative_getD_succ rest (pos + d) i (by simpa using h)
      simpa [cumulative] using this
  | [d], _, 0, h => by simp at h
  | [], _, _, h => by simp at h

/-- Every cumulative position is at least the starting position. -/
theorem cumulative_le :
    ∀ (ds : List Nat) (pos q : Nat), q ∈ cumulative ds pos → pos ≤ q
  | [], _, _, h => by simp [cumulative] at h
  | d :: rest, pos, q, h => by
      rcases (by simpa [cumulative] using h : q = pos ∨ q ∈ cumulative rest (pos + d)) with
        h | h
      · omega
      · have := cumulative_le rest (pos + d) q h
        omega

/-- Cumulative positions are non-decreasing. -/
theorem cumulative_chain :
    ∀ (ds : List Nat) (pos : Nat), List.Chain' (· ≤ ·) (cumulative ds pos)
  | [], _ => by simp [cumulative]
  | d :: rest, pos => by
      simp only [cumulative]
      refine List.chain'_cons'.mpr ⟨?_, cumulative_chain rest (pos + d)⟩
      intro q hq
      have hmem : q ∈ cumulative rest (pos + d) := List.mem_of_mem_head? hq
      have := cumulative_le rest (pos + d) q hmem
      omega

/-- Reading position `i < n` of a mapped range hits the function value. -/
theorem getD_range_map {α : Type} (n i : Nat) (f : Nat → α) (dflt : α) (h : i < n) :
    ((List.range n).map f).getD i dflt = f i := by
  rw [List.getD_eq_getElem _ _ (by simpa using h)]
  simp

/-- The even-padded width never shrinks the source width. -/
theorem le_evenWidth (width : Nat) : width ≤ evenWidth width := by
  unfold evenWidth
  omega

/-- The flat index of an in-range pixel byte is inside a buffer of exactly
`width * height * ps` bytes. -/
theorem pixel_index_lt (width height ps hh ww c : Nat)
    (hh1 : hh < height) (hw : ww < width) (hc : c < ps) :
    (hh * width + ww) * ps + c < width * height * ps := by
  have h1 : hh * width + ww + 1 ≤ height * width := by
    have h2 : (hh + 1) * width ≤ height * width := Nat.mul_le_mul_right _ hh1
    nlinarith
  calc (hh * width + ww) * ps + c < (hh * width + ww) * ps + ps := by omega
    _ = (hh * width + ww + 1) * ps := by ring
    _ ≤ height * width * ps := Nat.mul_le_mul_right _ h1
    _ = width * height * ps := by ring

/-- The feed system transforms the i-th task of the query by
`sendFrameToTask`. -/
theorem send_frame_getD (recorders : List (Nat × Recorder)) (tasks : List Mp4Task)
    (i : Nat) (hi : i < tasks.length) (dflt : Mp4Task) :
    (send_frame_to_mp4_tasks recorders tasks).2.getD i dflt =
      sendFrameToTask recorders (tasks.get ⟨i, hi⟩) := by
  simp [send_frame_to_mp4_tasks, List.getD, List.getElem?_map,
    List.getElem?_eq_getElem hi, List.get_eq_getElem]

/-- A send onto a channel whose receiver is gone changes nothing: the send
result is discarded by `let _ = ...`. -/
theorem sendFrameToTask_dead (recorders : List (Nat × Recorder)) (t : Mp4Task)
    (h : t.receiverAlive = false) : sendFrameToTask recorders t = t := by
  unfold sendFrameToTask
  split
  · rfl
  · split
    · rfl
    · rw [if_neg (by simp [h])]

/-- The render system transforms the i-th smuggled recorder by
`smuggleOne`, keeping its key. -/
theorem smuggle_frame_getD (images : Nat → Option RenderImage) (gpu : Nat → Nat → Nat)
    (smugglers : List (Nat × SmuggledRecorder)) (i : Nat) (hi : i < smugglers.length)
    (dflt : Nat × SmuggledRecorder) :
    (smuggle_frame images gpu smugglers).getD i dflt =
      ((smugglers.get ⟨i, hi⟩).1, smuggleOne images gpu (smugglers.get ⟨i, hi⟩).2) := by
  simp [smuggle_frame, List.getD, List.getElem?_map,
    List.getElem?_eq_getElem hi, List.get_eq_getElem]

/-! ## Claim theorems -/

/-- Claim C1, counterexample: when the first received frame fails the
size validation (1×1 image, 4 bytes per pixel, empty pixel buffer), the
worker exits via the validation branch and `encoder.finish()` is NOT
invoked — refuting the claim that the encoder is finished on every exit of
the receive loop. -/
theorem mp4_c1_counterexample :
    (runWorker 1 1 4 [Mp4TaskPayload.Data 0 []]).exit = ExitKind.validationFailure ∧
      (runWorker 1 1 4 [Mp4TaskPayload.Data 0 []]).finished = false := by
  constructor <;> rfl

/-- Claim C1, amended: the encoder is finished (encoder.finish is invoked)
before the worker completes exactly on the exits via an explicit `Terminate`
message or via channel closure; on early termination after a frame-size
validation failure the worker returns without invoking `encoder.finish`. -/
theorem mp4_c1_finish_iff_not_validation (width height ps : Nat)
    (msgs : List Mp4TaskPayload) :
    (runWorker width height ps msgs).finished = true ↔
      (runWorker width height ps msgs).exit ≠ ExitKind.validationFailure :=
  encodeLoop_finished_iff width height ps msgs 0 []

/-- Claim C2: a worker fed a sequence of size-valid data frames submits every
frame to the encoder at the current position (the run equals `encodedRun`),
the submitted frames are the converted source frames in order, the submit
positions are the cumulative durations starting at `Time::zero()` — each
position is the previous one advanced by the previous frame's reported
duration — and the positions are non-decreasing. -/
theorem mp4_c2_positions_cumulative (width height ps : Nat)
    (frames : List (Nat × List Nat))
    (hv : ∀ f ∈ frames, (width * height * ps) % 2 ^ 32 = f.2.length % 2 ^ 32) :
    (runWorker width height ps (frames.map fun f => Mp4TaskPayload.Data f.1 f.2)).encoded =
        encodedRun width height ps frames 0 ∧
      (encodedRun width height ps frames 0).map Prod.fst =
        (frames.map fun f => convertedFrame width height ps f.2) ∧
      (encodedRun width height ps frames 0).map Prod.snd =
        cumulative (frames.map Prod.fst) 0 ∧
      (∀ i, i + 1 < frames.length →
        (cumulative (frames.map Prod.fst) 0).getD (i + 1) 0 =
          (cumulative (frames.map Prod.fst) 0).getD i 0 +
            (frames.map Prod.fst).getD i 0) ∧
      List.Chain' (· ≤ ·) ((encodedRun width height ps frames 0).map Prod.snd) := by
  refine ⟨?_, encodedRun_map_fst width height ps frames 0,
    encodedRun_map_snd width height ps frames 0, ?_, ?_⟩
  · have h := encodeLoop_valid_segment width height ps frames 0 [] [] hv
    rw [List.append_nil] at h
    unfold runWorker
    rw [h]
    simp [encodeLoop]
  · intro i hi
    exact cumulative_getD_succ (frames.map Prod.fst) 0 i (by simpa using hi)
  · rw [encodedRun_map_snd width height ps frames 0]
    exact cumulative_chain (frames.map Prod.fst) 0

/-- Claim C2, witness: a 2×1 single-byte-pixel worker fed two valid frames of
durations 3 and 4 encodes them at positions 0 and 3. -/
theorem mp4_c2_witness :
    (runWorker 2 1 1
        ([(3, [7, 8]), (4, [5, 6])].map fun f => Mp4TaskPayload.Data f.1 f.2)).encoded =
      encodedRun 2 1 1 [(3, [7, 8]), (4, [5, 6])] 0 ∧
      (encodedRun 2 1 1 [(3, [7, 8]), (4, [5, 6])] 0).map Prod.snd = [0, 3] :=
  ⟨(mp4_c2_positions_cumulative 2 1 1 [(3, [7, 8]), (4, [5, 6])] (by decide)).1,
    by decide⟩

/-- Claim C3: when the worker receives a frame whose pixel-buffer byte length
differs from width × height × pixel_size (in the `u32` arithmetic of the
source) after any run of valid frames, it logs the error and terminates
immediately: the run's result encodes exactly the frames before the invalid
one — neither the invalid frame nor any later message (`rest` is arbitrary)
is ever encoded — and the exit is the validation-failure return. -/
theorem mp4_c3_validation_failure_terminates (width height ps : Nat)
    (frames : List (Nat × List Nat)) (t : Nat) (d : List Nat)
    (rest : List Mp4TaskPayload)
    (hv : ∀ f ∈ frames, (width * height * ps) % 2 ^ 32 = f.2.length % 2 ^ 32)
    (hbad : (width * height * ps) % 2 ^ 32 ≠ d.length % 2 ^ 32) :
    runWorker width height ps
        ((frames.map fun f => Mp4TaskPayload.Data f.1 f.2) ++
          Mp4TaskPayload.Data t d :: rest) =
      { encoded := encodedRun width height ps frames 0, finished := false,
        errorLogged := true, exit := ExitKind.validationFailure } := by
  unfold runWorker
  rw [encodeLoop_valid_segment width height ps frames 0 [] _ hv]
  simp only [encodeLoop]
  rw [if_pos hbad]
  simp

/-- Claim C4: for a size-valid frame the converted array has shape
`(height, evenWidth width, 3)`; every element in a padding column
`width ≤ w < evenWidth width` is zero, and every element with `w < width`
(and `c` inside the pixel, as it is for the ≥3-byte formats the source
feeds) is the source byte at flat index `(h * width + w) * pixel_size + c`,
which is in bounds; in particular odd source width 101 is padded to 102. -/
theorem mp4_c4_converted_frame_layout (width height ps : Nat) (d : List Nat)
    (hlen : d.length = width * height * ps) :
    (convertedFrame width height ps d).length = height ∧
      (∀ hh, hh < height →
        ((convertedFrame width height ps d).getD hh []).length = evenWidth width) ∧
      (∀ hh ww, hh < height → ww < evenWidth width →
        (((convertedFrame width height ps d).getD hh []).getD ww []).length = 3) ∧
      (∀ hh ww c, hh < height → ww < evenWidth width → c < 3 → width ≤ ww →
        (((convertedFrame width height ps d).getD hh []).getD ww []).getD c 0 = 0) ∧
      (∀ hh ww c, hh < height → ww < width → c < 3 → c < ps →
        (hh * width + ww) * ps + c < d.length ∧
          (((convertedFrame width height ps d).getD hh []).getD ww []).getD c 0 =
            d.getD ((hh * width + ww) * ps + c) 0) ∧
      evenWidth 101 = 102 := by
  refine ⟨by simp [convertedFrame], ?_, ?_, ?_, ?_, by decide⟩
  · intro hh h1
    rw [convertedFrame, getD_range_map height hh _ _ h1]
    simp
  · intro hh ww h1 h2
    rw [convertedFrame, getD_range_map height hh _ _ h1,
      getD_range_map (evenWidth width) ww _ _ h2]
    simp
  · intro hh ww c h1 h2 h3 h4
    rw [convertedFrame, getD_range_map height hh _ _ h1,
      getD_range_map (evenWidth width) ww _ _ h2, getD_range_map 3 c _ _ h3,
      if_pos h4]
  · intro hh ww c h1 h2 h3 h4
    have h2e : ww < evenWidth width := Nat.lt_of_lt_of_le h2 (le_evenWidth width)
    refine ⟨by rw [hlen]; exact pixel_index_lt width height ps hh ww c h1 h2 h4, ?_⟩
    rw [convertedFrame, getD_range_map height hh _ _ h1,
      getD_range_map (evenWidth width) ww _ _ h2e, getD_range_map 3 c _ _ h3,
      if_neg (by omega),
      show pixelIndex width ps hh ww c = (hh * width + ww) * ps + c by
        unfold pixelIndex; ring]

/-- Claim C4, witness: a 1×1 3-byte-pixel frame `[10, 11, 12]` is padded to
width 2; element `(0,0,0)` is the source byte 10 and the padding element
`(0,1,0)` is zero. -/
theorem mp4_c4_witness :
    (((convertedFrame 1 1 3 [10, 11, 12]).getD 0 []).getD 0 []).getD 0 0 = 10 ∧
      (((convertedFrame 1 1 3 [10, 11, 12]).getD 0 []).getD 1 []).getD 0 0 = 0 := by
  have h := mp4_c4_converted_frame_layout 1 1 3 [10, 11, 12] (by decide)
  exact ⟨((h.2.2.2.2.1 0 0 0 (by decide) (by decide) (by decide) (by decide)).2).trans
      (by decide),
    h.2.2.2.1 0 1 0 (by decide) (by decide) (by decide) (by decide)⟩

/-- Claim C3, witness: a 2×1 single-byte-pixel recording accepts one valid
2-byte frame, then receives a 1-byte frame; the worker stops there and the
trailing frame is never encoded. -/
theorem mp4_c3_witness :
    runWorker 2 1 1
        (([(5, [7, 8])].map fun f => Mp4TaskPayload.Data f.1 f.2) ++
          Mp4TaskPayload.Data 0 [9] :: [Mp4TaskPayload.Data 0 [1, 2]]) =
      { encoded := encodedRun 2 1 1 [(5, [7, 8])] 0, finished := false,
        errorLogged := true, exit := ExitKind.validationFailure } :=
  mp4_c3_validation_failure_terminates 2 1 1 [(5, [7, 8])] 0 [9]
    [Mp4TaskPayload.Data 0 [1, 2]] (by decide) (by decide)

/-- Claim C5: on a feed tick the recorder registry is only read, every task
is visited, and for each task whose recording is tracked the system reads
only the back (most recent) entry of the frame buffer — a task with an empty
buffer is skipped unchanged — and sends exactly that entry on the channel;
when the receiver is gone the failed send is silently dropped and the task
is unchanged, with no error surfaced (the system is total and returns
normally). -/
theorem mp4_c5_feed_stage (recorders : List (Nat × Recorder)) (tasks : List Mp4Task)
    (i : Nat) (hi : i < tasks.length) :
    (send_frame_to_mp4_tasks recorders tasks).1 = recorders ∧
      (send_frame_to_mp4_tasks recorders tasks).2.length = tasks.length ∧
      (lookupRecorder recorders (tasks.get ⟨i, hi⟩).tracking_id = none →
        (send_frame_to_mp4_tasks recorders tasks).2.getD i (tasks.get ⟨i, hi⟩) =
          tasks.get ⟨i, hi⟩) ∧
      (∀ r, lookupRecorder recorders (tasks.get ⟨i, hi⟩).tracking_id = some r →
        r.frames = [] →
        (send_frame_to_mp4_tasks recorders tasks).2.getD i (tasks.get ⟨i, hi⟩) =
          tasks.get ⟨i, hi⟩) ∧
      (∀ r entry, lookupRecorder recorders (tasks.get ⟨i, hi⟩).tracking_id = some r →
        r.frames.getLast? = some entry → (tasks.get ⟨i, hi⟩).receiverAlive = true →
        (send_frame_to_mp4_tasks recorders tasks).2.getD i (tasks.get ⟨i, hi⟩) =
          { tasks.get ⟨i, hi⟩ with
            queued := (tasks.get ⟨i, hi⟩).queued ++
              [Mp4TaskPayload.Data entry.frame_time entry.texture] }) ∧
      ((tasks.get ⟨i, hi⟩).receiverAlive = false →
        (send_frame_to_mp4_tasks recorders tasks).2.getD i (tasks.get ⟨i, hi⟩) =
          tasks.get ⟨i, hi⟩) := by
  refine ⟨rfl, by simp [send_frame_to_mp4_tasks], ?_, ?_, ?_, ?_⟩
  · intro h
    rw [send_frame_getD recorders tasks i hi]
    simp only [List.get_eq_getElem] at h ⊢
    simp [sendFrameToTask, h]
  · intro r hr hf
    rw [send_frame_getD recorders tasks i hi]
    simp only [List.get_eq_getElem] at hr ⊢
    simp [sendFrameToTask, hr, hf]
  · intro r entry hr hl ha
    rw [send_frame_getD recorders tasks i hi]
    simp only [List.get_eq_getElem] at hr ha ⊢
    simp [sendFrameToTask, hr, hl, ha]
  · intro hdead
    rw [send_frame_getD recorders tasks i hi]
    exact sendFrameToTask_dead recorders _ hdead

/-- Claim C5, witness: one task for tracking id 1 whose recording holds one
buffered frame gets exactly that frame sent on its channel. -/
theorem mp4_c5_witness :
    (send_frame_to_mp4_tasks
        [(1, { target_handle := 5, frames := [{ frame_time := 3, texture := [9] }] })]
        [{ tracking_id := 1, receiverAlive := true, queued := [] }]).2.getD 0
        { tracking_id := 1, receiverAlive := true, queued := [] } =
      { tracking_id := 1, receiverAlive := true,
        queued := [Mp4TaskPayload.Data 3 [9]] } :=
  ((mp4_c5_feed_stage
      [(1, { target_handle := 5, frames := [{ frame_time := 3, texture := [9] }] })]
      [{ tracking_id := 1, receiverAlive := true, queued := [] }] 0
      (by decide)).2.2.2.2.1
    { target_handle := 5, frames := [{ frame_time := 3, texture := [9] }] }
    { frame_time := 3, texture := [9] } (by decide) (by decide) (by decide)).trans
    (by decide)

/-- Claim C6: when the i-th smuggled recording's target image resolves, the
readback buffer — whose byte length is exactly
`width * height * pixel_size` of the resolved target — becomes that
recording's new `last_frame`, unconditionally replacing whatever was stored
before (the result does not depend on the old `last_frame`). -/
theorem render_c6_readback (images : Nat → Option RenderImage) (gpu : Nat → Nat → Nat)
    (smugglers : List (Nat × SmuggledRecorder)) (i : Nat) (hi : i < smugglers.length)
    (image : RenderImage)
    (himg : images (smugglers.get ⟨i, hi⟩).2.target_handle = some image) :
    (smuggle_frame images gpu smugglers).getD i (smugglers.get ⟨i, hi⟩) =
        ((smugglers.get ⟨i, hi⟩).1,
          { target_handle := (smugglers.get ⟨i, hi⟩).2.target_handle,
            last_frame := some (readbackBuffer gpu
              (smugglers.get ⟨i, hi⟩).2.target_handle
              (image.width * image.height * image.pixel_size)) }) ∧
      (readbackBuffer gpu (smugglers.get ⟨i, hi⟩).2.target_handle
          (image.width * image.height * image.pixel_size)).length =
        image.width * image.height * image.pixel_size := by
  constructor
  · rw [smuggle_frame_getD images gpu smugglers i hi]
    simp only [List.get_eq_getElem] at himg ⊢
    simp [smuggleOne, himg]
  · simp [readbackBuffer]

/-- Claim C6, witness: a recording whose 2×1 four-byte target resolves gets
an 8-byte buffer stored as its new latest frame, replacing the old one. -/
theorem render_c6_witness :
    (smuggle_frame (fun h => if h = 5 then some ⟨2, 1, 4⟩ else none) (fun _ i => i)
        [(1, { target_handle := 5, last_frame := some [0] })]).getD 0
        (1, { target_handle := 5, last_frame := some [0] }) =
      (1, { target_handle := 5,
            last_frame := some (readbackBuffer (fun _ i => i) 5 8) }) ∧
      (readbackBuffer (fun _ i => i) 5 8).length = 8 := by
  have h := render_c6_readback (fun h => if h = 5 then some ⟨2, 1, 4⟩ else none)
    (fun _ i => i) [(1, { target_handle := 5, last_frame := some [0] })] 0
    (by decide) ⟨2, 1, 4⟩ (by decide)
  exact ⟨h.1.trans (by decide), h.2⟩

/-- Claim C8: when the i-th smuggled recording's target image does not
resolve on a render tick, that recording is skipped whole: the entry — its
key, target handle, and stored latest frame — is returned unchanged, with no
partial or garbage write. -/
theorem render_c8_skip_unresolved (images : Nat → Option RenderImage)
    (gpu : Nat → Nat → Nat) (smugglers : List (Nat × SmuggledRecorder))
    (i : Nat) (hi : i < smugglers.length)
    (himg : images (smugglers.get ⟨i, hi⟩).2.target_handle = none) :
    (smuggle_frame images gpu smugglers).getD i (smugglers.get ⟨i, hi⟩) =
      smugglers.get ⟨i, hi⟩ := by
  rw [smuggle_frame_getD images gpu smugglers i hi]
  simp only [List.get_eq_getElem] at himg ⊢
  simp [smuggleOne, himg]

/-- Claim C8, witness: with no image resolvable, the recording's stored
frame survives the tick untouched. -/
theorem render_c8_witness :
    (smuggle_frame (fun _ => none) (fun _ i => i)
        [(1, { target_handle := 5, last_frame := some [7, 7] })]).getD 0
        (1, { target_handle := 5, last_frame := some [7, 7] }) =
      (1, { target_handle := 5, last_frame := some [7, 7] }) :=
  render_c8_skip_unresolved (fun _ => none) (fun _ i => i)
    [(1, { target_handle := 5, last_frame := some [7, 7] })] 0 (by decide) (by decide)

/-- Claim C7: a Stop event whose tracking id matches no task in the query is
a no-op: the drain step returns the state unchanged and does not panic,
whichever way the recorder lookup and image resolution go. -/
theorem mp4_c7_stop_unknown_noop (images : Nat → Option RenderImage)
    (st : ManageState) (e : Mp4Capture)
    (hstop : e.capture_type = Mp4State.Stop)
    (hno : ∀ t ∈ st.tasks, t.tracking_id ≠ e.tracking_id) :
    processEvent images st e = Except.ok st := by
  have hfind : st.tasks.find? (fun t => t.tracking_id == e.tracking_id) = none :=
    List.find?_eq_none.mpr fun t ht => by simpa using hno t ht
  cases hrec : lookupRecorder st.recorders e.tracking_id with
  | none => simp [processEvent, hrec]
  | some recorder =>
    cases himg : images recorder.target_handle with
    | none => simp [processEvent, hrec, himg]
    | some image => simp [processEvent, hrec, himg, hstop, hfind]

/-- Claim C7, witness: Stop for id 1 with only a task for id 2 registered —
even with the recorder tracked and its image resolvable — changes nothing. -/
theorem mp4_c7_witness :
    processEvent (fun _ => some ⟨2, 2, 4⟩)
        { recorders := [(1, { target_handle := 5, frames := [] })],
          tasks := [{ tracking_id := 2, receiverAlive := true, queued := [] }],
          spawned := [] }
        { tracking_id := 1, capture_type := Mp4State.Stop, path := none } =
      Except.ok
        { recorders := [(1, { target_handle := 5, frames := [] })],
          tasks := [{ tracking_id := 2, receiverAlive := true, queued := [] }],
          spawned := [] } :=
  mp4_c7_stop_unknown_noop (fun _ => some ⟨2, 2, 4⟩) _ _ (by decide) (by decide)

/-- Claim C9: a Stop event whose tracking id is tracked but whose recording's
target image does not resolve is dropped by `continue 'event_drain` before
the Start/Stop match: the state is returned unchanged, so no Terminate is
ever queued — even when a live matching task exists (see the witness). -/
theorem mp4_c9_stop_unresolved_target (images : Nat → Option RenderImage)
    (st : ManageState) (e : Mp4Capture)
    (r : Recorder) (hrec : lookupRecorder st.recorders e.tracking_id = some r)
    (himg : images r.target_handle = none) :
    processEvent images st e = Except.ok st := by
  simp [processEvent, hrec, himg]

/-- Claim C9, witness: a live worker for id 1 is not terminated by Stop while
its recording's target image is unresolvable: its channel stays empty. -/
theorem mp4_c9_witness :
    processEvent (fun _ => none)
        { recorders := [(1, { target_handle := 5, frames := [] })],
          tasks := [{ tracking_id := 1, receiverAlive := true, queued := [] }],
          spawned := [] }
        { tracking_id := 1, capture_type := Mp4State.Stop, path := none } =
      Except.ok
        { recorders := [(1, { target_handle := 5, frames := [] })],
          tasks := [{ tracking_id := 1, receiverAlive := true, queued := [] }],
          spawned := [] } :=
  mp4_c9_stop_unresolved_target (fun _ => none) _ _
    { target_handle := 5, frames := [] } (by decide) (by decide)

/-- Claim C10: when a Stop event's tracking id is tracked, its target image
resolves, and the first matching task's worker has already exited (the
channel receiver is dropped, so the send is disconnected), the
`.expect("Failed to send terminate signal to task")` panics — the failed
Stop-side send is not a silent no-op.  Such states are reachable because the
worker drops the receiver whenever its loop ends (Terminate, channel
closure, or validation failure) while the task component is only reaped
later by `clean_unmonitored_tasks`. -/
theorem mp4_c10_stop_dead_receiver_panics (images : Nat → Option RenderImage)
    (st : ManageState) (e : Mp4Capture)
    (hstop : e.capture_type = Mp4State.Stop)
    (r : Recorder) (hrec : lookupRecorder st.recorders e.tracking_id = some r)
    (image : RenderImage) (himg : images r.target_handle = some image)
    (t : Mp4Task)
    (hfind : st.tasks.find? (fun tk => tk.tracking_id == e.tracking_id) = some t)
    (hdead : t.receiverAlive = false) :
    processEvent images st e =
      Except.error "Failed to send terminate signal to task" := by
  simp [processEvent, hrec, himg, hstop, hfind, hdead]

/-- Claim C10, witness: Stop for id 1 whose registered task's receiver is
gone panics instead of silently doing nothing. -/
theorem mp4_c10_witness :
    processEvent (fun _ => some ⟨2, 2, 4⟩)
        { recorders := [(1, { target_handle := 5, frames := [] })],
          tasks := [{ tracking_id := 1, receiverAlive := false, queued := [] }],
          spawned := [] }
        { tracking_id := 1, capture_type := Mp4State.Stop, path := none } =
      Except.error "Failed to send terminate signal to task" :=
  mp4_c10_stop_dead_receiver_panics (fun _ => some ⟨2, 2, 4⟩) _ _ (by decide)
    { target_handle := 5, frames := [] } (by decide) ⟨2, 2, 4⟩ (by decide)
    { tracking_id := 1, receiverAlive := false, queued := [] } (by decide) (by decide)

end BevyCaptureMedia
